import Mathlib

/-!
Shallow embedding of the core of the `ea_okx` trading platform
(crates `core`, `trading`, `backtest`, `risk`), together with proofs that
settle the specification claims about it.

Modelling conventions:
* `rust_decimal::Decimal` is embedded as `ℚ`.  All decimal values appearing
  in the verified code paths are small fixed-point literals on which
  `rust_decimal` arithmetic (`+`, `-`, `*`, `max`, comparisons) is exact and
  agrees with `ℚ`; every division compared across a claim appears with the
  same operands on both sides.  Divisions whose divisor can be zero are
  modelled explicitly (rust_decimal panics there).
* Rust wall-clock reads (`Utc::now()`) are not embedded; timestamps are
  abstract `Nat` values and time-dependent predicates ("timed out") are taken
  as inputs, mirroring the single comparison the code performs.
* `&mut self` methods returning `Result<()>` are embedded as state-passing
  functions returning the new state together with an `Except`-style status.
  A Rust `panic!` / `.unwrap()` on an `Err` is a distinct `panic` outcome.
* `HashMap` values iterated only for commutative folds are embedded as
  association lists with unique keys.
-/

set_option autoImplicit false

namespace EaOkx

/-- Embedded `rust_decimal::Decimal` (exact on the verified code paths). -/
abbrev Dec := ℚ

/-- Embedded `Symbol` (the validated `BASE-QUOTE` string acts purely as a map
key in the verified code paths). -/
abbrev Symbol := String

/-- Errors of the `core` crate raised by validated-constructor types
(`src/crates/core/src/error.rs`); payloads are kept structured instead of the
rendered strings. -/
inductive CoreError where
  | InvalidPrice (value : Dec)
  | InvalidQuantity (value : Dec)
  | InvalidSymbol (s : String)
  deriving DecidableEq, Repr

/-- Embedded `Price` (`src/crates/core/src/types.rs`): wraps a decimal. -/
structure Price where
  val : Dec
  deriving DecidableEq, Repr

/-- Embedded `Price::new`: fails with `InvalidPrice` on a value `≤ 0`. -/
def Price.new (value : Dec) : Except CoreError Price :=
  if value ≤ 0 then .error (.InvalidPrice value) else .ok ⟨value⟩

/-- Embedded `Quantity` (`src/crates/core/src/types.rs`). -/
structure Quantity where
  val : Dec
  deriving DecidableEq, Repr

/-- Embedded `Quantity::new`: fails with `InvalidQuantity` on a value `< 0`. -/
def Quantity.new (value : Dec) : Except CoreError Quantity :=
  if value < 0 then .error (.InvalidQuantity value) else .ok ⟨value⟩

/-- Embedded `OrderSide` (`src/crates/core/src/models/order.rs`). -/
inductive OrderSide where
  | Buy
  | Sell
  deriving DecidableEq, Repr

/-- Embedded `OrderType` (`src/crates/core/src/models/order.rs`). -/
inductive OrderType where
  | Market
  | Limit
  | PostOnly
  | Ioc
  | Fok
  | StopLoss
  | TakeProfit
  | TrailingStop
  | Iceberg
  deriving DecidableEq, Repr

/-- Embedded `PositionSide` (`src/crates/core/src/models/position.rs`). -/
inductive PositionSide where
  | Long
  | Short
  | Net
  deriving DecidableEq, Repr

/-- Embedded `Position` (`src/crates/core/src/models/position.rs`).  The
fields `id`, `strategy_id`, `margin`, `leverage`, `liquidation_price`,
`opened_at`, `last_updated` are never read by the verified code paths and are
omitted. -/
structure Position where
  symbol : Symbol
  side : PositionSide
  quantity : Quantity
  avg_entry_price : Price
  current_price : Price
  unrealized_pnl : Dec
  realized_pnl : Dec
  deriving DecidableEq, Repr

/-- Embedded `Position::new`: entry price is also the initial current price,
both P&L fields start at zero. -/
def Position.new (symbol : Symbol) (side : PositionSide) (quantity : Quantity)
    (entry_price : Price) : Position :=
  { symbol := symbol
    side := side
    quantity := quantity
    avg_entry_price := entry_price
    current_price := entry_price
    unrealized_pnl := 0
    realized_pnl := 0 }

/-- Embedded `Position::calculate_unrealized_pnl`. -/
def Position.calculate_unrealized_pnl (p : Position) : Dec :=
  let price_diff := p.current_price.val - p.avg_entry_price.val
  let qty := p.quantity.val
  match p.side with
  | .Long => price_diff * qty
  | .Short => -price_diff * qty
  | .Net => price_diff * qty

/-- Embedded `Position::update_price`: sets the current price and recomputes
the unrealized P&L. -/
def Position.update_price (p : Position) (current_price : Price) : Position :=
  let p := { p with current_price := current_price }
  { p with unrealized_pnl := p.calculate_unrealized_pnl }

/-- Embedded `Order` (`src/crates/core/src/models/order.rs`).  Only the fields
read by the verified code paths are kept; the id stands for the `Uuid`. -/
structure Order where
  id : Nat
  symbol : Symbol
  side : OrderSide
  order_type : OrderType
  quantity : Quantity
  price : Option Price
  deriving DecidableEq, Repr

/-- Embedded `OrderState` (`src/crates/trading/src/state_machine.rs`). -/
inductive OrderState where
  | Created
  | Validated
  | Submitted
  | Acknowledged
  | PartiallyFilled
  | Filled
  | Cancelled
  | Rejected
  | Failed
  | Expired
  deriving DecidableEq, Repr

/-- Embedded `OrderState::is_terminal`. -/
def OrderState.is_terminal : OrderState → Bool
  | .Filled | .Cancelled | .Rejected | .Failed | .Expired => true
  | _ => false

/-- Embedded `OrderState::can_cancel`. -/
def OrderState.can_cancel : OrderState → Bool
  | .Created | .Validated | .Submitted | .Acknowledged | .PartiallyFilled => true
  | _ => false

/-- Error of the `trading` crate raised on an illegal lifecycle transition
(`src/crates/trading/src/error.rs`); the Rust error renders the two states and
the order id into a message string. -/
inductive TradingError where
  | InvalidStateTransition (from_state to_state : OrderState) (order_id : Nat)
  deriving DecidableEq, Repr

/-- Embedded `StateTransition` audit record.  The wall-clock `timestamp` and
the always-empty `metadata` map are omitted. -/
structure StateTransition where
  from_state : OrderState
  to_state : OrderState
  reason : String
  deriving DecidableEq, Repr

/-- Embedded `OrderStateMachine` (`src/crates/trading/src/state_machine.rs`).
The wall-clock fields `created_at` / `updated_at` are omitted. -/
structure OrderStateMachine where
  order_id : Nat
  current_state : OrderState
  transitions : List StateTransition
  deriving DecidableEq, Repr

/-- Embedded `OrderStateMachine::new`: starts in `Created` with an empty
audit trail. -/
def OrderStateMachine.new (order_id : Nat) : OrderStateMachine :=
  { order_id := order_id, current_state := .Created, transitions := [] }

/-- Embedded `OrderStateMachine::is_valid_transition`: terminal states admit
no transition, self-transitions are always valid, otherwise the fixed
`matches!` table applies. -/
def OrderStateMachine.is_valid_transition (sm : OrderStateMachine)
    (to_state : OrderState) : Bool :=
  if sm.current_state.is_terminal then false
  else if sm.current_state = to_state then true
  else
    match sm.current_state, to_state with
    | .Created, .Validated => true
    | .Created, .Rejected => true
    | .Created, .Failed => true
    | .Validated, .Submitted => true
    | .Validated, .Rejected => true
    | .Validated, .Cancelled => true
    | .Submitted, .Acknowledged => true
    | .Submitted, .Rejected => true
    | .Submitted, .Failed => true
    | .Submitted, .Cancelled => true
    | .Submitted, .Expired => true
    | .Acknowledged, .PartiallyFilled => true
    | .Acknowledged, .Filled => true
    | .Acknowledged, .Cancelled => true
    | .Acknowledged, .Rejected => true
    | .PartiallyFilled, .Filled => true
    | .PartiallyFilled, .Cancelled => true
    | _, _ => false

/-- Embedded `OrderStateMachine::transition` (a `&mut self` method returning
`Result<()>`): on an invalid transition the machine is unchanged and an
`InvalidStateTransition` error is returned; otherwise the accepted transition
is appended to the audit trail and the current state is updated. -/
def OrderStateMachine.transition (sm : OrderStateMachine) (to_state : OrderState)
    (reason : String) : OrderStateMachine × Except TradingError Unit :=
  if sm.is_valid_transition to_state then
    ({ sm with
        current_state := to_state
        transitions := sm.transitions ++
          [{ from_state := sm.current_state, to_state := to_state, reason := reason }] },
      .ok ())
  else
    (sm, .error (.InvalidStateTransition sm.current_state to_state sm.order_id))

/-- Embedded `OrderStateMachine::is_active`. -/
def OrderStateMachine.is_active (sm : OrderStateMachine) : Bool :=
  !sm.current_state.is_terminal

/-- The legal-transition set exactly as the claim states it (spec §4.2),
excluding self-transitions. -/
def specLegalPair : OrderState → OrderState → Bool
  | .Created, t => t = .Validated || t = .Rejected || t = .Failed
  | .Validated, t => t = .Submitted || t = .Rejected || t = .Cancelled
  | .Submitted, t =>
      t = .Acknowledged || t = .Rejected || t = .Failed || t = .Cancelled ||
      t = .Expired
  | .Acknowledged, t =>
      t = .PartiallyFilled || t = .Filled || t = .Cancelled || t = .Rejected
  | .PartiallyFilled, t => t = .Filled || t = .Cancelled
  | _, _ => false

/-- Transition acceptance exactly as the claim states it: the pair is in the
fixed legal set, or it is a self-transition on a non-terminal state. -/
def specTransitionAllowed (current t : OrderState) : Bool :=
  specLegalPair current t || (current = t && !current.is_terminal)

/-- C1: `transition(to, reason)` succeeds exactly when `(current_state, to)`
is in the fixed legal set or is a self-transition on a non-terminal state;
from every terminal state every transition fails with
`InvalidStateTransition`; on failure the current state and the transition
history are unchanged, and on success the accepted transition is appended to
the history. -/
theorem c1_state_machine_transition (sm : OrderStateMachine) (to_state : OrderState)
    (reason : String) :
    sm.transition to_state reason =
      (if specTransitionAllowed sm.current_state to_state then
        ({ sm with
            current_state := to_state
            transitions := sm.transitions ++
              [{ from_state := sm.current_state, to_state := to_state,
                 reason := reason }] },
          Except.ok ())
      else
        (sm, Except.error
          (.InvalidStateTransition sm.current_state to_state sm.order_id))) := by
  have h : sm.is_valid_transition to_state =
      specTransitionAllowed sm.current_state to_state := by
    rcases sm with ⟨id, cur, trs⟩
    cases cur <;> cases to_state <;> rfl
  rcases sm with ⟨id, cur, trs⟩
  simp only [OrderStateMachine.transition, h]

/-- Embedded `CommissionModel` (`src/crates/backtest/src/cost_model.rs`). -/
structure CommissionModel where
  maker_rate : Dec
  taker_rate : Dec
  min_commission : Dec
  deriving DecidableEq, Repr

/-- Embedded `CommissionModel::okx_spot` (identical to the Rust `Default`):
maker 0.1%, taker 0.15%, no minimum. -/
def CommissionModel.okx_spot : CommissionModel :=
  { maker_rate := 0.001, taker_rate := 0.0015, min_commission := 0 }

/-- Embedded `CommissionModel::calculate`: notional times the maker rate for
`Limit | PostOnly` and the taker rate otherwise, floored at the minimum. -/
def CommissionModel.calculate (m : CommissionModel) (order_type : OrderType)
    (price quantity : Dec) : Dec :=
  let notional := price * quantity
  let rate :=
    match order_type with
    | .Limit | .PostOnly => m.maker_rate
    | .Market | .Ioc | .Fok => m.taker_rate
    | .StopLoss | .TakeProfit | .TrailingStop | .Iceberg => m.taker_rate
  let commission := notional * rate
  max commission m.min_commission

/-- Embedded `SlippageModel` (`src/crates/backtest/src/cost_model.rs`). -/
structure SlippageModel where
  fixed_bps : Dec
  impact_coefficient : Dec
  min_slippage : Dec
  deriving DecidableEq, Repr

/-- Embedded `SlippageModel::default`: 5 bps fixed, impact coefficient
0.0001, no minimum. -/
def SlippageModel.default_model : SlippageModel :=
  { fixed_bps := 5, impact_coefficient := 0.0001, min_slippage := 0 }

/-- Embedded `SlippageModel::calculate_market`: fixed bps component plus a
linear impact component using `quantity / avg_volume` when `avg_volume > 0`
and a zero ratio otherwise, floored at the minimum. -/
def SlippageModel.calculate_market (m : SlippageModel) (_side : OrderSide)
    (price quantity avg_volume : Dec) : Dec :=
  let fixed_slippage := price * m.fixed_bps / 10000
  let volume_ratio := if 0 < avg_volume then quantity / avg_volume else 0
  let impact_slippage := price * m.impact_coefficient * volume_ratio
  let total_slippage := fixed_slippage + impact_slippage
  max total_slippage m.min_slippage

/-- Embedded `SlippageModel::calculate_limit`: filled limit orders have zero
slippage. -/
def SlippageModel.calculate_limit (_m : SlippageModel) (_side : OrderSide)
    (_price _quantity : Dec) : Dec :=
  0

/-- Embedded `SlippageModel::apply_slippage`: buys pay up, sells receive
less. -/
def SlippageModel.apply_slippage (_m : SlippageModel) (side : OrderSide)
    (price slippage : Dec) : Dec :=
  match side with
  | .Buy => price + slippage
  | .Sell => price - slippage

/-- Embedded `CostModel` (`src/crates/backtest/src/cost_model.rs`). -/
structure CostModel where
  commission : CommissionModel
  slippage : SlippageModel
  deriving DecidableEq, Repr

/-- Embedded `CostModel::default`: default commission and slippage models. -/
def CostModel.default_model : CostModel :=
  { commission := CommissionModel.okx_spot, slippage := SlippageModel.default_model }

/-- Embedded `CostModel::calculate_total_cost`: returns the tuple
`(execution_price, commission, slippage)`; market orders use the market
slippage model, every other type the (zero) limit model. -/
def CostModel.calculate_total_cost (cm : CostModel) (order_type : OrderType)
    (side : OrderSide) (price quantity avg_volume : Dec) : Dec × Dec × Dec :=
  let commission := cm.commission.calculate order_type price quantity
  let slippage :=
    match order_type with
    | .Market => cm.slippage.calculate_market side price quantity avg_volume
    | _ => cm.slippage.calculate_limit side price quantity
  let execution_price := cm.slippage.apply_slippage side price slippage
  (execution_price, commission, slippage)

/-- The commission rate table exactly as the claim states it: maker for
`Limit` and `PostOnly`, taker for the seven other order types. -/
def specCommissionRate (m : CommissionModel) : OrderType → Dec
  | .Limit | .PostOnly => m.maker_rate
  | .Market | .Ioc | .Fok | .StopLoss | .TakeProfit | .TrailingStop | .Iceberg =>
      m.taker_rate

/-- C7: for every order type, price and quantity, the commission equals
`max(min_commission, price · quantity · rate)` with the maker rate for
`Limit`/`PostOnly` and the taker rate for all other types; under the OKX spot
rates a Limit 1.0 @ 50000 costs 50.0 and a Market 1.0 @ 50000 costs 75.0. -/
theorem c7_commission_calculate :
    (∀ (m : CommissionModel) (ot : OrderType) (price quantity : Dec),
      m.calculate ot price quantity =
        max m.min_commission (price * quantity * specCommissionRate m ot)) ∧
    CommissionModel.okx_spot.calculate .Limit 50000 1 = 50 ∧
    CommissionModel.okx_spot.calculate .Market 50000 1 = 75 := by
  refine ⟨fun m ot price quantity => ?_, by norm_num [CommissionModel.calculate,
    CommissionModel.okx_spot], by norm_num [CommissionModel.calculate,
    CommissionModel.okx_spot]⟩
  cases ot <;> simp [CommissionModel.calculate, specCommissionRate, max_comm]

/-- The market-slippage formula exactly as the claim states it, with the
unspecified positive `eps` of `max(avg_volume, eps)` as a parameter. -/
def claimedMarketSlippage (m : SlippageModel) (eps price quantity avg_volume : Dec) :
    Dec :=
  max m.min_slippage
    (price * m.fixed_bps / 10000 +
      price * m.impact_coefficient * (quantity / max avg_volume eps))

/-- C8 counterexample: no positive `eps` makes the claimed formula
`max(min_slippage, price·fixed_bps/10000 + price·impact·(qty/max(avg_volume,
eps)))` agree with `calculate_market`: at the concrete input Buy 0.1 @ 50000
with `avg_volume = 0` the code returns exactly 25 (zero impact ratio), while
the claimed formula returns `25 + 0.5/eps > 25` for every positive `eps`. -/
theorem c8_market_slippage_counterexample :
    ¬ ∃ eps : Dec, 0 < eps ∧ ∀ price quantity avg_volume : Dec,
      SlippageModel.default_model.calculate_market .Buy price quantity avg_volume =
        claimedMarketSlippage SlippageModel.default_model eps price quantity
          avg_volume := by
  rintro ⟨eps, heps, h⟩
  have h0 := h 50000 (1/10) 0
  rw [SlippageModel.calculate_market, claimedMarketSlippage] at h0
  rw [max_eq_right heps.le] at h0
  simp only [SlippageModel.default_model] at h0
  norm_num at h0
  rw [max_eq_right (by positivity : (0:Dec) ≤ 25 + 5 * (1 / 10 / eps))] at h0
  have hpos : (0:Dec) < 1 / 10 / eps := by positivity
  nlinarith

/-- C8 as amended: market slippage is
`max(min_slippage, price·fixed_bps/10000 + price·impact·ratio)` with
`ratio = quantity/avg_volume` when `avg_volume > 0` and `ratio = 0`
otherwise; the execution price is base ± slippage for Buy/Sell; with the
default parameters Buy 0.1 @ 50000 against average volume 1.0 gives slippage
25.5 and execution price 50025.5, the matching Sell gives 49974.5; filled
limit orders have zero slippage. -/
theorem c8_market_slippage_amended :
    (∀ (m : SlippageModel) (side : OrderSide) (price quantity avg_volume : Dec),
      m.calculate_market side price quantity avg_volume =
        max m.min_slippage
          (price * m.fixed_bps / 10000 + price * m.impact_coefficient *
            (if 0 < avg_volume then quantity / avg_volume else 0))) ∧
    (∀ (m : SlippageModel) (price slippage : Dec),
      m.apply_slippage .Buy price slippage = price + slippage ∧
      m.apply_slippage .Sell price slippage = price - slippage) ∧
    SlippageModel.default_model.calculate_market .Buy 50000 0.1 1 = 25.5 ∧
    (CostModel.default_model.calculate_total_cost .Market .Buy 50000 0.1 1).1 =
      50025.5 ∧
    (CostModel.default_model.calculate_total_cost .Market .Sell 50000 0.1 1).1 =
      49974.5 ∧
    (∀ (m : SlippageModel) (side : OrderSide) (price quantity : Dec),
      m.calculate_limit side price quantity = 0) := by
  refine ⟨fun m side price quantity avg_volume => ?_, fun m price slippage =>
    ⟨rfl, rfl⟩, ?_, ?_, ?_, fun m side price quantity => rfl⟩
  · rw [SlippageModel.calculate_market, max_comm]
  · norm_num [SlippageModel.calculate_market, SlippageModel.default_model]
  · norm_num [CostModel.calculate_total_cost, CostModel.default_model,
      SlippageModel.calculate_market, SlippageModel.default_model,
      SlippageModel.apply_slippage]
  · norm_num [CostModel.calculate_total_cost, CostModel.default_model,
      SlippageModel.calculate_market, SlippageModel.default_model,
      SlippageModel.apply_slippage]

/-- Errors of the `backtest` crate (`src/crates/backtest/src/error.rs`)
reached by the verified code paths; `CoreError` is the `#[from]` conversion
applied by the `?` operator. -/
inductive BtError where
  | ExecutionError (msg : String)
  | CoreError (e : CoreError)
  | InsufficientData (msg : String)
  deriving DecidableEq, Repr

/-- Modelled from the spec: the `Fill` record of the backtest `events` module
(the file itself is not among the sources); its field names and raw
`Decimal` types are pinned by the construction sites in `portfolio.rs` and
`engine.rs`. -/
structure Fill where
  order_id : Nat
  price : Dec
  quantity : Dec
  commission : Dec
  timestamp : Nat
  slippage : Dec
  deriving DecidableEq, Repr

/-- Looks up the first entry with the given key in an association list (the
embedding of a `HashMap` read). -/
def lookupAssoc {κ α : Type} [DecidableEq κ] (l : List (κ × α)) (s : κ) :
    Option α :=
  match l with
  | [] => none
  | (k, v) :: rest => if k = s then some v else lookupAssoc rest s

/-- Replaces the value of the first entry with the given key (the embedding
of an in-place `HashMap` entry mutation). -/
def updateAssoc {κ α : Type} [DecidableEq κ] (l : List (κ × α)) (s : κ)
    (v : α) : List (κ × α) :=
  match l with
  | [] => []
  | (k, w) :: rest =>
      if k = s then (k, v) :: rest else (k, w) :: updateAssoc rest s v

/-- Removes the first entry with the given key (the embedding of
`HashMap::remove`). -/
def removeAssoc {κ α : Type} [DecidableEq κ] (l : List (κ × α)) (s : κ) :
    List (κ × α) :=
  match l with
  | [] => []
  | (k, w) :: rest => if k = s then rest else (k, w) :: removeAssoc rest s

/-- Updates the value under the key or appends a new entry (the embedding of
`HashMap::insert`). -/
def insertAssoc {κ α : Type} [DecidableEq κ] (l : List (κ × α)) (s : κ)
    (v : α) : List (κ × α) :=
  match l with
  | [] => [(s, v)]
  | (k, w) :: rest =>
      if k = s then (k, v) :: rest else (k, w) :: insertAssoc rest s v

/-- Embedded `Portfolio` (`src/crates/backtest/src/portfolio.rs`); maps are
association lists, timestamps abstract. -/
structure Portfolio where
  initial_capital : Dec
  cash : Dec
  positions : List (Symbol × Position)
  realized_pnl : Dec
  total_commission : Dec
  total_slippage : Dec
  equity_curve : List (Nat × Dec)
  current_prices : List (Symbol × Dec)
  deriving DecidableEq, Repr

/-- Embedded `Portfolio::new`: all cash, no positions, empty curves. -/
def Portfolio.new (initial_capital : Dec) : Portfolio :=
  { initial_capital := initial_capital
    cash := initial_capital
    positions := []
    realized_pnl := 0
    total_commission := 0
    total_slippage := 0
    equity_curve := []
    current_prices := [] }

/-- Embedded `Portfolio::total_equity`: cash plus the sum of
`quantity · current_price` over the open positions. -/
def Portfolio.total_equity (pf : Portfolio) : Dec :=
  pf.cash +
    (pf.positions.map (fun kp => kp.2.quantity.val * kp.2.current_price.val)).sum

/-- Embedded `Portfolio::unrealized_pnl`: sum of the per-position cached
unrealized P&L fields. -/
def Portfolio.unrealized_pnl (pf : Portfolio) : Dec :=
  (pf.positions.map (fun kp => kp.2.unrealized_pnl)).sum

/-- Embedded `Portfolio::total_pnl`. -/
def Portfolio.total_pnl (pf : Portfolio) : Dec :=
  pf.realized_pnl + pf.unrealized_pnl

/-- Outcome of `Portfolio::apply_fill` on a `&mut self` receiver: `ok` and
`err` carry the receiver state at the return point (Rust keeps mutations made
before an early `return Err`), `panicked` is an unwinding `panic!` whose
state is unobservable. -/
inductive FillResult where
  | ok (p : Portfolio)
  | err (e : BtError) (p : Portfolio)
  | panicked
  deriving DecidableEq, Repr

/-- Shared tail of `Portfolio::apply_fill`: accumulate commission and
slippage, then append `(fill.timestamp, total_equity())` to the equity
curve. -/
def Portfolio.record_fill_costs (pf : Portfolio) (fill : Fill) : Portfolio :=
  let pf := { pf with
    total_commission := pf.total_commission + fill.commission
    total_slippage := pf.total_slippage + fill.slippage }
  { pf with equity_curve := pf.equity_curve ++ [(fill.timestamp, pf.total_equity)] }

/-- Embedded `Portfolio::apply_fill` (`src/crates/backtest/src/portfolio.rs`
lines 51–134).  Mirrors the Rust statement order exactly:

* Buy: insufficient-cash guard (early `Err`), cash deduction,
  `entry().or_insert_with(..)` — whose closure builds a `Position` with
  `Price::new(Decimal::ZERO).unwrap()` and therefore panics when the symbol
  has no position — then the VWAP update, where `Quantity::new(..)?` and
  `Price::new(..)?` are fallible re-validations (and rust_decimal division
  panics when `old_qty + fill.quantity = 0`).
* Sell: missing-position and insufficient-quantity guards (early `Err`),
  realized P&L and cash credit, position reduction or removal.
* Both: the shared `record_fill_costs` tail. -/
def Portfolio.apply_fill (pf : Portfolio) (order : Order) (fill : Fill) :
    FillResult :=
  let cost := fill.price * fill.quantity
  match order.side with
  | .Buy =>
    let total_cost := cost + fill.commission + fill.slippage
    if pf.cash < total_cost then
      .err (.ExecutionError "Insufficient cash for buy order") pf
    else
      let pf := { pf with cash := pf.cash - total_cost }
      match lookupAssoc pf.positions order.symbol with
      | none => .panicked
      | some position =>
        let old_quantity := position.quantity.val
        let old_cost := old_quantity * position.avg_entry_price.val
        let new_quantity := old_quantity + fill.quantity
        if new_quantity = 0 then
          .panicked
        else
          let new_avg_price := (old_cost + cost) / new_quantity
          match Quantity.new new_quantity with
          | .error e => .err (.CoreError e) pf
          | .ok newq =>
            let pf := { pf with
              positions := updateAssoc pf.positions order.symbol
                { position with quantity := newq } }
            match Price.new new_avg_price with
            | .error e => .err (.CoreError e) pf
            | .ok newp =>
              let pf := { pf with
                positions := updateAssoc pf.positions order.symbol
                  { position with quantity := newq, avg_entry_price := newp } }
              .ok (pf.record_fill_costs fill)
  | .Sell =>
    match lookupAssoc pf.positions order.symbol with
    | none => .err (.ExecutionError "No position to sell") pf
    | some position =>
      let position_qty := position.quantity.val
      if position_qty < fill.quantity then
        .err (.ExecutionError "Insufficient position for sell order") pf
      else
        let entry_cost := fill.quantity * position.avg_entry_price.val
        let exit_proceeds := cost
        let gross_pnl := exit_proceeds - entry_cost
        let net_pnl := gross_pnl - fill.commission - fill.slippage
        let pf := { pf with
          realized_pnl := pf.realized_pnl + net_pnl
          cash := pf.cash + (exit_proceeds - fill.commission - fill.slippage) }
        let new_qty := position_qty - fill.quantity
        if new_qty ≤ 0 then
          .ok (Portfolio.record_fill_costs
            { pf with positions := removeAssoc pf.positions order.symbol } fill)
        else
          match Quantity.new new_qty with
          | .error e => .err (.CoreError e) pf
          | .ok newq =>
            .ok (Portfolio.record_fill_costs
              { pf with
                positions := updateAssoc pf.positions order.symbol
                  { position with quantity := newq } } fill)

/-- Embedded `Portfolio::update_prices`: for each entry of the price map,
record the current price and, when a position exists for the symbol and the
price passes `Price::new`, update the position and its unrealized P&L. -/
def Portfolio.update_prices (pf : Portfolio) (prices : List (Symbol × Dec)) :
    Portfolio :=
  match prices with
  | [] => pf
  | (s, price) :: rest =>
    let pf := { pf with current_prices := insertAssoc pf.current_prices s price }
    let pf :=
      match lookupAssoc pf.positions s with
      | some position =>
        match Price.new price with
        | .ok price_obj =>
          { pf with
            positions := updateAssoc pf.positions s
              (position.update_price price_obj) }
        | .error _ => pf
      | none => pf
    pf.update_prices rest

/-- The Buy order of specification scenario 5 (the repository's own
`test_buy_order`). -/
def c2Order : Order :=
  { id := 1, symbol := "BTC-USDT", side := .Buy, order_type := .Market,
    quantity := ⟨0.1⟩, price := some ⟨50000⟩ }

/-- The fill of specification scenario 5: 0.1 @ 50000, commission 5,
slippage 2.5. -/
def c2Fill : Fill :=
  { order_id := 1, price := 50000, quantity := 0.1, commission := 5,
    timestamp := 0, slippage := 2.5 }

/-- C2 (code bug): on a fresh portfolio with cash 10000 and the scenario-5
fill, the cash guard passes (10000 is not below 5007.5), yet `apply_fill`
panics instead of returning the specified portfolio with cash 4992.5:
because `or_insert_with` must create the position, its closure evaluates
`Price::new(Decimal::ZERO).unwrap()`, and `Price::new(0)` is an `Err`. -/
theorem c2_buy_fill_panics :
    (Portfolio.new 10000).apply_fill c2Order c2Fill = .panicked ∧
    ¬ (Portfolio.new 10000).cash < c2Fill.price * c2Fill.quantity +
        c2Fill.commission + c2Fill.slippage := by
  constructor
  · rw [Portfolio.apply_fill]
    norm_num [c2Order, c2Fill, Portfolio.new, lookupAssoc]
  · norm_num [Portfolio.new, c2Fill]

/-- Portfolios reachable from a fresh `Portfolio::new` by successful
`apply_fill` calls and `update_prices` calls. -/
inductive PortfolioReachable : Portfolio → Prop where
  | base (c : Dec) : PortfolioReachable (Portfolio.new c)
  | fill {pf pf2 : Portfolio} (order : Order) (f : Fill) :
      PortfolioReachable pf → pf.apply_fill order f = .ok pf2 →
      PortfolioReachable pf2
  | prices {pf : Portfolio} (ps : List (Symbol × Dec)) :
      PortfolioReachable pf → PortfolioReachable (pf.update_prices ps)

/-- A portfolio without positions admits no successful fill: a Buy either
fails the cash guard or panics creating the position, and a Sell fails the
missing-position guard. -/
lemma apply_fill_not_ok_of_no_positions (pf : Portfolio)
    (h : pf.positions = []) (o : Order) (f : Fill) (pf2 : Portfolio) :
    pf.apply_fill o f ≠ .ok pf2 := by
  intro hok
  rcases o with ⟨oid, osym, oside, otype, oq, oprice⟩
  cases oside
  · rw [Portfolio.apply_fill] at hok
    simp only at hok
    split at hok
    · exact FillResult.noConfusion hok
    · simp [h, lookupAssoc] at hok
  · rw [Portfolio.apply_fill] at hok
    simp [h, lookupAssoc] at hok

/-- Updating prices on a portfolio without positions only touches the price
map: positions stay empty and the accounting fields are untouched. -/
lemma update_prices_no_positions (ps : List (Symbol × Dec)) (pf : Portfolio)
    (h : pf.positions = []) :
    (pf.update_prices ps).positions = [] ∧
    (pf.update_prices ps).cash = pf.cash ∧
    (pf.update_prices ps).initial_capital = pf.initial_capital ∧
    (pf.update_prices ps).realized_pnl = pf.realized_pnl ∧
    (pf.update_prices ps).total_commission = pf.total_commission ∧
    (pf.update_prices ps).total_slippage = pf.total_slippage := by
  induction ps generalizing pf with
  | nil => simp [Portfolio.update_prices, h]
  | cons sp rest ih =>
    obtain ⟨s, price⟩ := sp
    rw [Portfolio.update_prices]
    simp only [h, lookupAssoc]
    exact ih _ rfl

/-- Every reachable portfolio has no positions and untouched accounting
fields (a Buy on a fresh symbol panics inside `or_insert_with`, so no fill
ever succeeds). -/
lemma portfolioReachable_invariant (pf : Portfolio) (h : PortfolioReachable pf) :
    pf.positions = [] ∧ pf.cash = pf.initial_capital ∧ pf.realized_pnl = 0 ∧
    pf.total_commission = 0 ∧ pf.total_slippage = 0 := by
  induction h with
  | base c => simp [Portfolio.new]
  | fill o f hr hok ih =>
    exact absurd hok (apply_fill_not_ok_of_no_positions _ ih.1 _ _ _)
  | prices ps hr ih =>
    obtain ⟨h1, h2, h3, h4, h5⟩ := ih
    obtain ⟨g1, g2, g3, g4, g5, g6⟩ := update_prices_no_positions ps _ h1
    exact ⟨g1, by rw [g2, g3, h2], by rw [g4, h3], by rw [g5, h4], by rw [g6, h5]⟩

/-- C3: for every portfolio reachable by successful `apply_fill` and
`update_prices` calls from a fresh portfolio, `total_equity` equals cash
plus `Σ quantity · current_price` over the positions, and also equals
`initial_capital + realized_pnl + unrealized_pnl − total_commission −
total_slippage`, exactly. -/
theorem c3_portfolio_equity_identities (pf : Portfolio)
    (h : PortfolioReachable pf) :
    pf.total_equity = pf.cash +
      (pf.positions.map (fun kp => kp.2.quantity.val * kp.2.current_price.val)).sum ∧
    pf.total_equity = pf.initial_capital + pf.realized_pnl + pf.unrealized_pnl -
      pf.total_commission - pf.total_slippage := by
  obtain ⟨h1, h2, h3, h4, h5⟩ := portfolioReachable_invariant pf h
  refine ⟨rfl, ?_⟩
  simp [Portfolio.total_equity, Portfolio.unrealized_pnl, h1, h2, h3, h4, h5]

/-- C3 witness: the identities instantiated at the fresh portfolio with
capital 10000. -/
theorem c3_portfolio_equity_identities_witness :
    (Portfolio.new 10000).total_equity = (Portfolio.new 10000).cash +
      ((Portfolio.new 10000).positions.map
        (fun kp => kp.2.quantity.val * kp.2.current_price.val)).sum ∧
    (Portfolio.new 10000).total_equity = (Portfolio.new 10000).initial_capital +
      (Portfolio.new 10000).realized_pnl + (Portfolio.new 10000).unrealized_pnl -
      (Portfolio.new 10000).total_commission -
      (Portfolio.new 10000).total_slippage :=
  c3_portfolio_equity_identities (Portfolio.new 10000) (PortfolioReachable.base 10000)

/-- A portfolio holding one long BTC-USDT position, used to exhibit a
non-atomic error return of `apply_fill`. -/
def c10Portfolio : Portfolio :=
  { initial_capital := 10000
    cash := 100
    positions := [("BTC-USDT",
      { symbol := "BTC-USDT", side := .Long, quantity := ⟨1⟩,
        avg_entry_price := ⟨50000⟩, current_price := ⟨50000⟩,
        unrealized_pnl := 0, realized_pnl := 0 })]
    realized_pnl := 0
    total_commission := 0
    total_slippage := 0
    equity_curve := []
    current_prices := [] }

/-- A Buy order on the held symbol. -/
def c10Order : Order :=
  { id := 2, symbol := "BTC-USDT", side := .Buy, order_type := .Market,
    quantity := ⟨1⟩, price := some ⟨50000⟩ }

/-- A fill whose raw decimal price is negative — constructible since `Fill`
carries plain decimals — driving the VWAP entry price below zero. -/
def c10Fill : Fill :=
  { order_id := 2, price := -60000, quantity := 1, commission := 0,
    timestamp := 0, slippage := 0 }

/-- The state `apply_fill` has built when `Price::new` rejects the new
average entry price: cash already credited with 60000 and the position
quantity already doubled. -/
def c10MutatedPortfolio : Portfolio :=
  { c10Portfolio with
    cash := 60100
    positions := [("BTC-USDT",
      { symbol := "BTC-USDT", side := .Long, quantity := ⟨2⟩,
        avg_entry_price := ⟨50000⟩, current_price := ⟨50000⟩,
        unrealized_pnl := 0, realized_pnl := 0 })] }

/-- C10 counterexample: `apply_fill` can return an error with the portfolio
already mutated.  On `c10Portfolio` and the negative-price fill the Buy
branch passes the cash guard, deducts the (negative) total cost and updates
the position quantity before `Price::new((old_cost + cost)/new_qty) =
Price::new(-5000)` fails, so the error return carries cash 60100 instead of
the original 100. -/
theorem c10_apply_fill_error_counterexample :
    c10Portfolio.apply_fill c10Order c10Fill =
      .err (.CoreError (.InvalidPrice (-5000))) c10MutatedPortfolio ∧
    c10MutatedPortfolio.cash ≠ c10Portfolio.cash := by
  constructor
  · rw [Portfolio.apply_fill]
    norm_num [c10Order, c10Fill, c10Portfolio, c10MutatedPortfolio, lookupAssoc,
      updateAssoc, Quantity.new, Price.new, Portfolio.record_fill_costs]
  · norm_num [c10MutatedPortfolio, c10Portfolio]

/-- C10 as amended: `apply_fill` is atomic on the three guard errors it
raises as `ExecutionError` (insufficient cash for a Buy, no position for a
Sell, insufficient position quantity for a Sell): whenever it returns an
`ExecutionError` the portfolio is exactly the one passed in.  (The fallible
`Quantity::new`/`Price::new` re-validations of the Buy branch return
`CoreError` values after cash has already been deducted, so atomicity does
not extend to them.) -/
theorem c10_apply_fill_guard_errors_atomic (pf : Portfolio) (o : Order)
    (f : Fill) (msg : String) (pf2 : Portfolio)
    (h : pf.apply_fill o f = .err (.ExecutionError msg) pf2) : pf2 = pf := by
  rcases o with ⟨oid, osym, oside, otype, oq, oprice⟩
  cases oside
  · rw [Portfolio.apply_fill] at h
    simp only at h
    split at h
    · exact (FillResult.err.injEq _ _ _ _).mp h |>.2.symm ▸ rfl
    · rcases hl : lookupAssoc pf.positions osym with _ | pos
      all_goals rw [hl] at h
      · exact FillResult.noConfusion h
      · simp only at h
        split at h
        · exact FillResult.noConfusion h
        · rcases hq : Quantity.new (pos.quantity.val + f.quantity) with e | q
          all_goals rw [hq] at h
          · simp at h
          · simp only at h
            rcases hp : Price.new ((pos.quantity.val * pos.avg_entry_price.val +
                f.price * f.quantity) / (pos.quantity.val + f.quantity)) with e | p
            all_goals rw [hp] at h
            · simp at h
            · exact FillResult.noConfusion h
  · rw [Portfolio.apply_fill] at h
    simp only at h
    rcases hl : lookupAssoc pf.positions osym with _ | pos
    all_goals rw [hl] at h
    · exact ((FillResult.err.injEq _ _ _ _).mp h).2.symm
    · simp only at h
      split at h
      · exact ((FillResult.err.injEq _ _ _ _).mp h).2.symm
      · split at h
        · exact FillResult.noConfusion h
        · rcases hq : Quantity.new (pos.quantity.val - f.quantity) with e | q
          all_goals rw [hq] at h
          · simp at h
          · exact FillResult.noConfusion h

/-- C10 witness: a Buy on a fresh portfolio with cash 10 against a fill
costing 100 trips the insufficient-cash guard, and the returned portfolio is
exactly the input. -/
theorem c10_apply_fill_guard_errors_atomic_witness :
    (Portfolio.new 10).apply_fill c10Order
        { order_id := 2, price := 100, quantity := 1, commission := 0,
          timestamp := 0, slippage := 0 } =
      .err (.ExecutionError "Insufficient cash for buy order") (Portfolio.new 10) ∧
    (Portfolio.new 10) = Portfolio.new 10 := by
  have h : (Portfolio.new 10).apply_fill c10Order
      { order_id := 2, price := 100, quantity := 1, commission := 0,
        timestamp := 0, slippage := 0 } =
      .err (.ExecutionError "Insufficient cash for buy order") (Portfolio.new 10) := by
    rw [Portfolio.apply_fill]
    norm_num [c10Order, Portfolio.new]
  exact ⟨h, c10_apply_fill_guard_errors_atomic _ _ _ _ _ h⟩

/-- Errors of the `risk` crate (`src/crates/risk/src/error.rs`) reached by
the validator; payloads are kept structured (the Rust errors render them
into message strings). -/
inductive RiskError where
  | PositionLimitExceeded (new_position limit : Dec) (symbol : Symbol)
  | LeverageLimitExceeded (leverage limit : Dec)
  | DailyLossLimitExceeded (loss limit : Dec)
  | InsufficientMargin (required available : Dec)
  deriving DecidableEq, Repr

/-- Embedded `RiskLimits` (`src/crates/risk/src/validators.rs`). -/
structure RiskLimits where
  max_position_size : List (Symbol × Quantity)
  max_portfolio_value : Dec
  max_leverage : Dec
  daily_loss_limit : Dec
  max_concentration_pct : Dec
  max_open_positions : Nat
  min_margin_ratio : Dec
  deriving DecidableEq, Repr

/-- Embedded `RiskLimits::default`: no per-symbol caps, leverage 3x, daily
loss 10000, concentration 25%, 10 open positions, 15% margin. -/
def RiskLimits.default_limits : RiskLimits :=
  { max_position_size := []
    max_portfolio_value := 1000000
    max_leverage := 3
    daily_loss_limit := 10000
    max_concentration_pct := 25
    max_open_positions := 10
    min_margin_ratio := 0.15 }

/-- Embedded `PortfolioState` snapshot handed to the validator. -/
structure PortfolioState where
  total_equity : Dec
  available_margin : Dec
  positions : List Position
  daily_pnl : Dec
  deriving DecidableEq, Repr

/-- Embedded `ViolationSeverity`. -/
inductive ViolationSeverity where
  | Critical
  | Warning
  | Info
  deriving DecidableEq, Repr

/-- Embedded `RiskViolation`; the message holds the structured error the
Rust code renders into a string. -/
structure RiskViolation where
  severity : ViolationSeverity
  rule : String
  message : RiskError
  deriving DecidableEq, Repr

/-- Embedded `ValidationResult`. -/
structure ValidationResult where
  violations : List RiskViolation
  deriving DecidableEq, Repr

/-- Embedded `ValidationResult::has_critical_violations`. -/
def ValidationResult.has_critical_violations (r : ValidationResult) : Bool :=
  r.violations.any (fun v => v.severity = .Critical)

/-- Embedded `ValidationResult::is_valid`: no Critical violation. -/
def ValidationResult.is_valid (r : ValidationResult) : Bool :=
  !r.has_critical_violations

/-- Embedded `PreTradeValidator::check_position_size`: with a per-symbol
cap, the signed position after the hypothetical fill (absolute value for a
Sell) must not exceed it. -/
def PreTradeValidator.check_position_size (limits : RiskLimits) (order : Order)
    (portfolio : PortfolioState) : Except RiskError Unit :=
  let order_qty := order.quantity.val
  match lookupAssoc limits.max_position_size order.symbol with
  | some max_qty =>
    let current_position :=
      ((portfolio.positions.find? (fun p => p.symbol = order.symbol)).map
        (fun p => p.quantity.val)).getD 0
    let new_position :=
      match order.side with
      | .Buy => current_position + order_qty
      | .Sell => |current_position - order_qty|
    if new_position > max_qty.val then
      .error (.PositionLimitExceeded new_position max_qty.val order.symbol)
    else
      .ok ()
  | none => .ok ()

/-- Embedded `PreTradeValidator::check_leverage`: a missing order price
(market order) contributes a zero notional; exposure over equity must not
exceed the leverage cap (zero leverage when equity is not positive). -/
def PreTradeValidator.check_leverage (limits : RiskLimits) (order : Order)
    (portfolio : PortfolioState) : Except RiskError Unit :=
  let price := (order.price.map Price.val).getD 0
  let order_value := price * order.quantity.val
  let total_exposure :=
    (portfolio.positions.map (fun p => p.quantity.val * p.current_price.val)).sum +
      order_value
  let leverage :=
    if 0 < portfolio.total_equity then total_exposure / portfolio.total_equity
    else 0
  if leverage > limits.max_leverage then
    .error (.LeverageLimitExceeded leverage limits.max_leverage)
  else
    .ok ()

/-- Embedded `PreTradeValidator::check_daily_loss`: fails exactly when
`daily_pnl < −daily_loss_limit` (the message renders the absolute loss). -/
def PreTradeValidator.check_daily_loss (limits : RiskLimits)
    (portfolio : PortfolioState) : Except RiskError Unit :=
  if portfolio.daily_pnl < -limits.daily_loss_limit then
    .error (.DailyLossLimitExceeded |portfolio.daily_pnl| limits.daily_loss_limit)
  else
    .ok ()

/-- Embedded `PreTradeValidator::check_concentration`: computes the
concentration percentage and, when it exceeds the cap, only emits a log
line — it always returns `Ok(())`. -/
def PreTradeValidator.check_concentration (limits : RiskLimits) (order : Order)
    (portfolio : PortfolioState) : Except RiskError Unit :=
  let price := (order.price.map Price.val).getD 0
  let order_value := price * order.quantity.val
  let concentration_pct :=
    if 0 < portfolio.total_equity then
      order_value / portfolio.total_equity * 100
    else
      100
  let _logged_warning := concentration_pct > limits.max_concentration_pct
  .ok ()

/-- Embedded `PreTradeValidator::check_margin`: the available margin must
cover `notional · min_margin_ratio`. -/
def PreTradeValidator.check_margin (limits : RiskLimits) (order : Order)
    (portfolio : PortfolioState) : Except RiskError Unit :=
  let price := (order.price.map Price.val).getD 0
  let order_value := price * order.quantity.val
  let required_margin := order_value * limits.min_margin_ratio
  if portfolio.available_margin < required_margin then
    .error (.InsufficientMargin required_margin portfolio.available_margin)
  else
    .ok ()

/-- Embedded `PreTradeValidator::check_max_positions`: like the
concentration check it only logs when a new symbol would exceed the cap and
always returns `Ok(())`. -/
def PreTradeValidator.check_max_positions (limits : RiskLimits) (order : Order)
    (portfolio : PortfolioState) : Except RiskError Unit :=
  let has_existing := portfolio.positions.any (fun p => p.symbol = order.symbol)
  let _logged_warning :=
    !has_existing && portfolio.positions.length ≥ limits.max_open_positions
  .ok ()

/-- Turns the outcome of one check into the violation-list segment
`validate_order` pushes for it. -/
def violationOf (severity : ViolationSeverity) (rule : String)
    (r : Except RiskError Unit) : List RiskViolation :=
  match r with
  | .error e => [{ severity := severity, rule := rule, message := e }]
  | .ok _ => []

/-- Embedded `PreTradeValidator::validate_order`: runs all six checks in
order (without short-circuiting), collecting a Critical violation for
position size, leverage, daily loss and margin failures and a Warning one
for concentration and max positions failures; the Rust method always
returns `Ok(result)`. -/
def PreTradeValidator.validate_order (limits : RiskLimits) (order : Order)
    (portfolio : PortfolioState) : ValidationResult :=
  { violations :=
      violationOf .Critical "Position Size Limit"
        (PreTradeValidator.check_position_size limits order portfolio) ++
      violationOf .Critical "Leverage Limit"
        (PreTradeValidator.check_leverage limits order portfolio) ++
      violationOf .Critical "Daily Loss Limit"
        (PreTradeValidator.check_daily_loss limits portfolio) ++
      violationOf .Warning "Concentration Limit"
        (PreTradeValidator.check_concentration limits order portfolio) ++
      violationOf .Critical "Margin Requirement"
        (PreTradeValidator.check_margin limits order portfolio) ++
      violationOf .Warning "Maximum Positions"
        (PreTradeValidator.check_max_positions limits order portfolio) }

/-- C5: the validation result accepts the order (`is_valid`) exactly when
its violation list holds no Critical entry; and whenever the snapshot's
`daily_pnl` is below the negated `daily_loss_limit`, `validate_order` on any
order returns a result containing a Critical "Daily Loss Limit" violation,
so the order is rejected. -/
theorem c5_validator_accepts_iff_no_critical (limits : RiskLimits) (order : Order)
    (portfolio : PortfolioState) :
    ((PreTradeValidator.validate_order limits order portfolio).is_valid = true ↔
      ∀ v ∈ (PreTradeValidator.validate_order limits order portfolio).violations,
        v.severity ≠ .Critical) ∧
    (portfolio.daily_pnl < -limits.daily_loss_limit →
      (∃ v ∈ (PreTradeValidator.validate_order limits order portfolio).violations,
        v.severity = .Critical ∧ v.rule = "Daily Loss Limit") ∧
      (PreTradeValidator.validate_order limits order portfolio).is_valid = false) := by
  constructor
  · simp [ValidationResult.is_valid, ValidationResult.has_critical_violations,
      List.any_eq_true]
  · intro h
    have hseg : PreTradeValidator.check_daily_loss limits portfolio =
        .error (.DailyLossLimitExceeded |portfolio.daily_pnl|
          limits.daily_loss_limit) := by
      rw [PreTradeValidator.check_daily_loss, if_pos h]
    have hmem : (⟨.Critical, "Daily Loss Limit",
        .DailyLossLimitExceeded (|portfolio.daily_pnl|)
          limits.daily_loss_limit⟩ : RiskViolation) ∈
        (PreTradeValidator.validate_order limits order portfolio).violations := by
      simp [PreTradeValidator.validate_order, violationOf, hseg]
    refine ⟨Exists.intro _ (And.intro hmem (And.intro rfl rfl)), ?_⟩
    have hcrit : (PreTradeValidator.validate_order limits order
        portfolio).has_critical_violations = true :=
      List.any_eq_true.mpr ⟨_, ⟨hmem, rfl⟩⟩
    simp [ValidationResult.is_valid, hcrit]

/-- The daily-loss scenario limits: the defaults with the limit at 5000. -/
def c5Limits : RiskLimits :=
  { RiskLimits.default_limits with daily_loss_limit := 5000 }

/-- An arbitrary new order for the daily-loss scenario. -/
def c5Order : Order :=
  { id := 4, symbol := "BTC-USDT", side := .Buy, order_type := .Iceberg,
    quantity := ⟨0.1⟩, price := some ⟨50000⟩ }

/-- A snapshot that already lost 6000 today. -/
def c5Portfolio : PortfolioState :=
  { total_equity := 100000, available_margin := 50000, positions := [],
    daily_pnl := -6000 }

/-- C5 witness: with `daily_pnl = −6000` and limit 5000 the result holds a
Critical "Daily Loss Limit" violation and the order is rejected. -/
theorem c5_validator_accepts_iff_no_critical_witness :
    c5Portfolio.daily_pnl < -c5Limits.daily_loss_limit ∧
    ((∃ v ∈ (PreTradeValidator.validate_order c5Limits c5Order c5Portfolio).violations,
        v.severity = .Critical ∧ v.rule = "Daily Loss Limit") ∧
      (PreTradeValidator.validate_order c5Limits c5Order c5Portfolio).is_valid =
        false) := by
  have h : c5Portfolio.daily_pnl < -c5Limits.daily_loss_limit := by
    norm_num [c5Portfolio, c5Limits, RiskLimits.default_limits]
  exact ⟨h, (c5_validator_accepts_iff_no_critical c5Limits c5Order c5Portfolio).2 h⟩

/-- A Buy of notional 50000 against equity 100000: concentration 50%, above
the default 25% cap. -/
def c6Order : Order :=
  { id := 5, symbol := "BTC-USDT", side := .Buy, order_type := .Limit,
    quantity := ⟨1⟩, price := some ⟨50000⟩ }

/-- The snapshot for the concentration scenario; every other check passes. -/
def c6Portfolio : PortfolioState :=
  { total_equity := 100000, available_margin := 50000, positions := [],
    daily_pnl := 0 }

/-- C6 counterexample: the order's notional share (50%) exceeds
`max_concentration_pct` (25%), yet `validate_order` returns an empty
violation list — no Warning concentration entry is ever produced, because
`check_concentration` only logs and returns `Ok(())`. -/
theorem c6_concentration_counterexample :
    (c6Order.price.map Price.val).getD 0 * c6Order.quantity.val /
        c6Portfolio.total_equity * 100 >
      RiskLimits.default_limits.max_concentration_pct ∧
    (PreTradeValidator.validate_order RiskLimits.default_limits c6Order
      c6Portfolio).violations = [] := by
  constructor
  · norm_num [c6Order, c6Portfolio, RiskLimits.default_limits]
  · norm_num [PreTradeValidator.validate_order, violationOf,
      PreTradeValidator.check_position_size, PreTradeValidator.check_leverage,
      PreTradeValidator.check_daily_loss, PreTradeValidator.check_concentration,
      PreTradeValidator.check_margin, PreTradeValidator.check_max_positions,
      lookupAssoc, c6Order, c6Portfolio, RiskLimits.default_limits]

/-- C6 as amended: `check_concentration` always returns `Ok(())` (a breach
is only logged), so for every order and snapshot the violation list of
`validate_order` contains no "Concentration Limit" entry; acceptance is
decided by the Critical checks alone. -/
theorem c6_concentration_never_in_result (limits : RiskLimits) (order : Order)
    (portfolio : PortfolioState) :
    ((PreTradeValidator.validate_order limits order portfolio).violations.all
      (fun v => v.rule ≠ "Concentration Limit")) = true ∧
    PreTradeValidator.check_concentration limits order portfolio = .ok () := by
  refine ⟨?_, rfl⟩
  rcases h1 : PreTradeValidator.check_position_size limits order portfolio with e1 | u1 <;>
  rcases h2 : PreTradeValidator.check_leverage limits order portfolio with e2 | u2 <;>
  rcases h3 : PreTradeValidator.check_daily_loss limits portfolio with e3 | u3 <;>
  rcases h4 : PreTradeValidator.check_margin limits order portfolio with e4 | u4 <;>
  simp [PreTradeValidator.validate_order, violationOf, h1, h2, h3, h4,
    PreTradeValidator.check_concentration, PreTradeValidator.check_max_positions]

/-- Embedded fill decision of `BacktestEngine::check_pending_orders`
(`src/crates/backtest/src/engine.rs` lines 346–359): Market always fills,
a priced Limit fills on `current ≤ limit` (Buy) or `current ≥ limit`
(Sell), everything else never fills. -/
def shouldFill (order : Order) (current_price : Dec) : Bool :=
  match order.order_type with
  | .Market => true
  | .Limit =>
    match order.price with
    | some order_price =>
      match order.side with
      | .Buy => current_price ≤ order_price.val
      | .Sell => current_price ≥ order_price.val
    | none => false
  | _ => false

/-- Embedded order-selection pass of `BacktestEngine::check_pending_orders`:
a pending order is picked exactly when its symbol has a current price and
`shouldFill` holds at it. -/
def checkPendingOrdersToFill (pending : List (Nat × Order))
    (current_prices : List (Symbol × Dec)) : List Nat :=
  ((pending.filter (fun kp =>
    match lookupAssoc current_prices kp.2.symbol with
    | some current_price => shouldFill kp.2 current_price
    | none => false)).map (fun kp => kp.1))

/-- Outcome of `BacktestEngine::fill_order` on the engine-owned portfolio. -/
inductive EngineFillOutcome where
  | ok (portfolio : Portfolio) (fill : Fill)
  | err (e : BtError) (portfolio : Portfolio)
  | panicked
  deriving DecidableEq, Repr

/-- Embedded `BacktestEngine::fill_order` (`src/crates/backtest/src/engine.rs`
lines 427–475).  The base price is
`order.price.unwrap_or(Price::new(dec!(0.0)).unwrap())`: Rust evaluates the
`unwrap_or` argument eagerly and `Price::new(0)` is an `Err`, so the
`.unwrap()` panics on every call, before the order price is even consulted.
The remainder (cost model, fill construction, `apply_fill`) is embedded
faithfully behind that evaluation. -/
def fillOrder (cm : CostModel) (avg_volumes : List (Symbol × Dec))
    (portfolio : Portfolio) (order : Order) (timestamp : Nat) :
    EngineFillOutcome :=
  let avg_volume := (lookupAssoc avg_volumes order.symbol).getD 1
  match Price.new 0 with
  | .error _ => .panicked
  | .ok default_price =>
    let base_price := (order.price.getD default_price).val
    let costs := cm.calculate_total_cost order.order_type order.side base_price
      order.quantity.val avg_volume
    let fill : Fill :=
      { order_id := order.id, price := costs.1, quantity := order.quantity.val,
        commission := costs.2.1, timestamp := timestamp, slippage := costs.2.2 }
    match portfolio.apply_fill order fill with
    | .ok pf2 => .ok pf2 fill
    | .err e pf2 => .err e pf2
    | .panicked => .panicked

/-- The fill condition exactly as the claim states it. -/
def specShouldFill (order : Order) (current_price : Dec) : Bool :=
  match order.order_type, order.price, order.side with
  | .Market, _, _ => true
  | .Limit, some limit_price, .Buy => current_price ≤ limit_price.val
  | .Limit, some limit_price, .Sell => current_price ≥ limit_price.val
  | _, _, _ => false

/-- A pending Market order (created by the engine with its creation-time
price) used as the concrete failing input for the fill path. -/
def c4Order : Order :=
  { id := 6, symbol := "BTC-USDT", side := .Buy, order_type := .Market,
    quantity := ⟨0.1⟩, price := some ⟨50000⟩ }

/-- C4: the pending-order fill conditions hold exactly as claimed (Market
always fills, Limit Buy on `current ≤ limit`, Limit Sell on
`current ≥ limit`, other types never), but the fill itself never prices
from the candle close: `fillOrder` panics on every input — the eagerly
evaluated `Price::new(0).unwrap()` default of its `unwrap_or` — shown both
universally and at the concrete pending Market order `c4Order` with current
close 50100. -/
theorem c4_pending_fill_conditions_and_fill_panics :
    (∀ (order : Order) (current_price : Dec),
      shouldFill order current_price = specShouldFill order current_price) ∧
    (∀ (cm : CostModel) (avg_volumes : List (Symbol × Dec))
      (portfolio : Portfolio) (order : Order) (timestamp : Nat),
      fillOrder cm avg_volumes portfolio order timestamp = .panicked) ∧
    shouldFill c4Order 50100 = true ∧
    fillOrder CostModel.default_model [("BTC-USDT", 1)] (Portfolio.new 10000)
      c4Order 0 = .panicked := by
  have hp : Price.new (0 : Dec) = .error (.InvalidPrice 0) := by
    norm_num [Price.new]
  have hfill : ∀ (cm : CostModel) (avg_volumes : List (Symbol × Dec))
      (portfolio : Portfolio) (order : Order) (timestamp : Nat),
      fillOrder cm avg_volumes portfolio order timestamp = .panicked := by
    intro cm avg_volumes portfolio order timestamp
    rw [fillOrder]
    simp [hp]
  refine ⟨fun order current_price => ?_, hfill, rfl, hfill _ _ _ _ _⟩
  rcases order with ⟨oid, osym, oside, otype, oq, oprice⟩
  cases otype <;> cases oside <;> cases oprice <;> rfl

/-- Embedded `OrderEvent` (`src/crates/trading/src/order_manager.rs`); the
`Uuid` payloads are the abstract order ids. -/
inductive OrderEvent where
  | OrderCreated (order_id : Nat)
  | OrderSubmitted (order_id : Nat)
  | OrderAcknowledged (order_id : Nat) (exchange_id : String)
  | OrderPartiallyFilled (order_id : Nat) (filled_qty : Quantity)
  | OrderFilled (order_id : Nat) (avg_price : Price)
  | OrderCancelled (order_id : Nat)
  | OrderRejected (order_id : Nat) (reason : String)
  | OrderFailed (order_id : Nat) (reason : String)
  | OrderExpired (order_id : Nat)
  deriving DecidableEq, Repr

/-- One iteration of the reconciliation loop of `OrderManager::reconcile`
(`src/crates/trading/src/order_manager.rs` lines 271–294) for a single order
id: `should_timeout` reads the order and evaluates the timeout comparison
(embedded as the `timed_out` predicate); when it holds the loop attempts the
transition to `Expired`, DISCARDS its result (`let _ = …`), and emits
`OrderExpired` unconditionally. -/
def reconcileStep (timed_out : Nat → Bool)
    (acc : List (Nat × OrderStateMachine) × List OrderEvent) (order_id : Nat) :
    List (Nat × OrderStateMachine) × List OrderEvent :=
  let orders := acc.1
  let events := acc.2
  let should_timeout :=
    match lookupAssoc orders order_id with
    | some _ => timed_out order_id
    | none => false
  if should_timeout then
    let orders2 :=
      match lookupAssoc orders order_id with
      | some sm => updateAssoc orders order_id (sm.transition .Expired "Timeout").1
      | none => orders
    (orders2, events ++ [OrderEvent.OrderExpired order_id])
  else
    (orders, events)

/-- Embedded `OrderManager::reconcile`: snapshot the ids of the active
(non-terminal) orders, then run the timeout pass over each. -/
def OrderManager.reconcile (orders : List (Nat × OrderStateMachine))
    (timed_out : Nat → Bool) :
    List (Nat × OrderStateMachine) × List OrderEvent :=
  let active_ids := (orders.filter (fun kv => kv.2.is_active)).map (fun kv => kv.1)
  active_ids.foldl (reconcileStep timed_out) (orders, [])

/-- Lookup after an in-place update: the updated key reads the new value
when it was present, every other key is untouched. -/
lemma lookupAssoc_updateAssoc {κ α : Type} [DecidableEq κ]
    (l : List (κ × α)) (k i : κ) (v : α) :
    lookupAssoc (updateAssoc l k v) i =
      if i = k then (lookupAssoc l k).map (fun _ => v) else lookupAssoc l i := by
  induction l with
  | nil => simp [lookupAssoc, updateAssoc]
  | cons kv rest ih =>
    obtain ⟨k1, w⟩ := kv
    by_cases h1 : k1 = k
    · subst h1
      by_cases h2 : k1 = i
      · subst h2
        simp [lookupAssoc, updateAssoc]
      · have h2s : ¬ i = k1 := fun h => h2 h.symm
        simp [lookupAssoc, updateAssoc, h2, h2s]
    · by_cases h2 : k1 = i
      · subst h2
        have hki : ¬ k = k1 := fun hh => h1 hh.symm
        simp [lookupAssoc, updateAssoc, h1, hki]
      · simp [lookupAssoc, updateAssoc, h1, h2, ih]

/-- A present key looks up to something. -/
lemma lookupAssoc_isSome_of_mem {κ α : Type} [DecidableEq κ]
    {l : List (κ × α)} {i : κ} {sm : α} (h : (i, sm) ∈ l) :
    (lookupAssoc l i).isSome = true := by
  induction l with
  | nil => cases h
  | cons kv rest ih =>
    obtain ⟨k1, w⟩ := kv
    rcases List.mem_cons.mp h with heq | hmem
    · cases heq
      simp [lookupAssoc]
    · by_cases h1 : k1 = i <;> simp [lookupAssoc, h1, ih hmem]

/-- With key-distinct entries a present entry is what lookup returns. -/
lemma lookupAssoc_eq_of_mem_nodup {κ α : Type} [DecidableEq κ]
    {l : List (κ × α)} {i : κ} {sm : α} (hnodup : (l.map Prod.fst).Nodup)
    (h : (i, sm) ∈ l) : lookupAssoc l i = some sm := by
  induction l with
  | nil => cases h
  | cons kv rest ih =>
    obtain ⟨k1, w⟩ := kv
    rcases List.mem_cons.mp h with heq | hmem
    · cases heq
      simp [lookupAssoc]
    · have h1 : k1 ≠ i := by
        intro h1
        subst h1
        exact (List.nodup_cons.mp hnodup).1
          (List.mem_map.mpr ⟨(k1, sm), hmem, rfl⟩)
      simp [lookupAssoc, h1, ih (List.nodup_cons.mp hnodup).2 hmem]

/-- A successful lookup comes from a present entry. -/
lemma lookupAssoc_mem {κ α : Type} [DecidableEq κ]
    {l : List (κ × α)} {i : κ} {v : α} (h : lookupAssoc l i = some v) :
    (i, v) ∈ l := by
  induction l with
  | nil => exact absurd h (by simp [lookupAssoc])
  | cons kv rest ih =>
    obtain ⟨k1, w⟩ := kv
    by_cases h1 : k1 = i
    · subst h1
      rw [lookupAssoc, if_pos rfl] at h
      cases h
      exact List.mem_cons_self _ _
    · rw [lookupAssoc, if_neg h1] at h
      exact List.mem_cons_of_mem _ (ih h)

/-- The timeout pass over a list of distinct ids, characterised by lookups:
a processed, present, timed-out id gets the Expired-transition attempt
applied to its entry, every other entry is untouched, and one
`OrderExpired` event is appended per processed id that is present and timed
out. -/
lemma reconcile_foldl_spec (timed_out : Nat → Bool) (ids : List Nat)
    (m : List (Nat × OrderStateMachine)) (evs : List OrderEvent)
    (hids : ids.Nodup) :
    (ids.foldl (reconcileStep timed_out) (m, evs)).2 =
      evs ++ (ids.filter (fun i => (lookupAssoc m i).isSome && timed_out i)).map
        (fun i => OrderEvent.OrderExpired i) ∧
    ∀ i : Nat,
      lookupAssoc (ids.foldl (reconcileStep timed_out) (m, evs)).1 i =
        if i ∈ ids ∧ timed_out i = true then
          (lookupAssoc m i).map (fun sm => (sm.transition .Expired "Timeout").1)
        else lookupAssoc m i := by
  induction ids generalizing m evs with
  | nil => simp
  | cons a rest ih =>
    have hnd := List.nodup_cons.mp hids
    rcases hla : lookupAssoc m a with _ | sm
    · have hstep : reconcileStep timed_out (m, evs) a = (m, evs) := by
        simp [reconcileStep, hla]
      rw [List.foldl_cons, hstep]
      obtain ⟨ihE, ihL⟩ := ih m evs hnd.2
      refine ⟨?_, ?_⟩
      · rw [ihE]
        simp [hla]
      · intro i
        rw [ihL i]
        by_cases hia : i = a
        · subst hia
          simp [hla]
        · simp [List.mem_cons, hia]
    · by_cases hta : timed_out a = true
      · have hstep : reconcileStep timed_out (m, evs) a =
            (updateAssoc m a ((sm.transition .Expired "Timeout").1),
              evs ++ [OrderEvent.OrderExpired a]) := by
          simp [reconcileStep, hla, hta]
        rw [List.foldl_cons, hstep]
        obtain ⟨ihE, ihL⟩ :=
          ih (updateAssoc m a ((sm.transition .Expired "Timeout").1))
            (evs ++ [OrderEvent.OrderExpired a]) hnd.2
        have hlookup : ∀ j,
            lookupAssoc (updateAssoc m a ((sm.transition .Expired "Timeout").1)) j =
              if j = a then some ((sm.transition .Expired "Timeout").1)
              else lookupAssoc m j := by
          intro j
          rw [lookupAssoc_updateAssoc]
          by_cases hj : j = a <;> simp [hj, hla]
        refine ⟨?_, ?_⟩
        · rw [ihE]
          have hfilter : rest.filter
              (fun i => (lookupAssoc (updateAssoc m a
                ((sm.transition .Expired "Timeout").1)) i).isSome && timed_out i) =
              rest.filter (fun i => (lookupAssoc m i).isSome && timed_out i) := by
            apply List.filter_congr
            intro j _
            rw [hlookup j]
            by_cases hja : j = a <;> simp [hja, hla]
          rw [hfilter]
          simp [hla, hta]
        · intro i
          rw [ihL i, hlookup i]
          by_cases hia : i = a
          · subst hia
            simp [hnd.1, hla, hta]
          · simp [List.mem_cons, hia]
      · have hstep : reconcileStep timed_out (m, evs) a = (m, evs) := by
          simp [reconcileStep, hla, hta]
        rw [List.foldl_cons, hstep]
        obtain ⟨ihE, ihL⟩ := ih m evs hnd.2
        refine ⟨?_, ?_⟩
        · rw [ihE]
          simp [hla, hta]
        · intro i
          rw [ihL i]
          by_cases hia : i = a
          · subst hia
            simp [hta]
          · simp [List.mem_cons, hia]

/-- A timed-out order stuck in `Created`: its `Expired` transition is not in
the legal set, so the reconcile attempt fails and is discarded. -/
def c9StuckOrder : OrderStateMachine :=
  { order_id := 7, current_state := .Created, transitions := [] }

/-- C9 counterexample: one non-terminal (`Created`) order whose timeout
predicate holds; after one `reconcile` pass it is still `Created`, not
`Expired` — the transition attempt fails silently — although `OrderExpired`
was emitted for it. -/
theorem c9_reconcile_counterexample :
    (OrderManager.reconcile [(7, c9StuckOrder)] (fun _ => true)).1 =
      [(7, c9StuckOrder)] ∧
    (OrderManager.reconcile [(7, c9StuckOrder)] (fun _ => true)).2 =
      [OrderEvent.OrderExpired 7] ∧
    c9StuckOrder.current_state.is_terminal = false := by
  refine ⟨?_, ?_, rfl⟩ <;> rfl

/-- C9 as amended: after one reconcile pass (over a map with distinct
keys), exactly one `OrderExpired` event is emitted per active timed-out
order; each such order has the `Expired`-transition ATTEMPT applied — which
lands in `Expired` only from `Submitted`, the single state with a legal
transition to `Expired`, and leaves every other state unchanged — while
orders that are terminal or not timed out are untouched. -/
theorem c9_reconcile_amended (orders : List (Nat × OrderStateMachine))
    (timed_out : Nat → Bool) (hnodup : (orders.map Prod.fst).Nodup) :
    ((OrderManager.reconcile orders timed_out).2 =
      (orders.filter (fun kv => kv.2.is_active && timed_out kv.1)).map
        (fun kv => OrderEvent.OrderExpired kv.1)) ∧
    (∀ i : Nat,
      lookupAssoc (OrderManager.reconcile orders timed_out).1 i =
        (lookupAssoc orders i).map (fun sm =>
          if sm.is_active && timed_out i then (sm.transition .Expired "Timeout").1
          else sm)) ∧
    (∀ sm : OrderStateMachine,
      (sm.transition .Expired "Timeout").1.current_state =
        if sm.current_state = .Submitted then OrderState.Expired
        else sm.current_state) := by
  have hre : OrderManager.reconcile orders timed_out =
      ((orders.filter (fun kv => kv.2.is_active)).map (fun kv => kv.1)).foldl
        (reconcileStep timed_out) (orders, []) := rfl
  have hact_nodup :
      ((orders.filter (fun kv => kv.2.is_active)).map (fun kv => kv.1)).Nodup := by
    have hs : (orders.filter (fun kv => kv.2.is_active)).Sublist orders :=
      List.filter_sublist _
    exact List.Nodup.sublist (List.Sublist.map _ hs) hnodup
  obtain ⟨hE, hL⟩ := reconcile_foldl_spec timed_out
    ((orders.filter (fun kv => kv.2.is_active)).map (fun kv => kv.1)) orders []
    hact_nodup
  refine ⟨?_, ?_, ?_⟩
  · rw [hre, hE, List.nil_append, List.filter_map]
    have h1 : (orders.filter (fun kv => kv.2.is_active)).filter
        ((fun i => (lookupAssoc orders i).isSome && timed_out i) ∘
          (fun kv => kv.1)) =
        (orders.filter (fun kv => kv.2.is_active)).filter
          (fun kv => timed_out kv.1) := by
      apply List.filter_congr
      intro kv hkv
      have hmem : kv ∈ orders := (List.mem_filter.mp hkv).1
      have hsome : (lookupAssoc orders kv.1).isSome = true :=
        @lookupAssoc_isSome_of_mem _ _ _ orders kv.1 kv.2 hmem
      simp [hsome]
    rw [h1, List.filter_filter, List.map_map]
    simp [Function.comp_def, Bool.and_comm]
  · intro i
    rw [hre, hL i]
    rcases hk : lookupAssoc orders i with _ | sm
    · have hni : i ∉ (orders.filter (fun kv => kv.2.is_active)).map
          (fun kv => kv.1) := by
        intro hi
        obtain ⟨kv, hkv, hfst⟩ := List.mem_map.mp hi
        have hsome : (lookupAssoc orders kv.1).isSome = true :=
          @lookupAssoc_isSome_of_mem _ _ _ orders kv.1 kv.2
            (List.mem_filter.mp hkv).1
        rw [hfst, hk] at hsome
        exact Bool.noConfusion hsome
      rw [if_neg (fun hc => hni hc.1)]
      simp [hk]
    · by_cases hact : sm.is_active = true
      · have hmem : (i, sm) ∈ orders := lookupAssoc_mem hk
        have hin : i ∈ (orders.filter (fun kv => kv.2.is_active)).map
            (fun kv => kv.1) :=
          List.mem_map.mpr ⟨(i, sm), List.mem_filter.mpr ⟨hmem, hact⟩, rfl⟩
        by_cases ht : timed_out i = true
        · rw [if_pos ⟨hin, ht⟩]
          simp [hk, hact, ht]
        · rw [if_neg (fun hc => ht hc.2)]
          simp [hk, hact, ht]
      · have hni : i ∉ (orders.filter (fun kv => kv.2.is_active)).map
            (fun kv => kv.1) := by
          intro hi
          obtain ⟨kv, hkv, hfst⟩ := List.mem_map.mp hi
          obtain ⟨hkmem, hkact⟩ := List.mem_filter.mp hkv
          have hlk : lookupAssoc orders kv.1 = some kv.2 :=
            lookupAssoc_eq_of_mem_nodup hnodup hkmem
          rw [hfst, hk] at hlk
          cases hlk
          exact hact hkact
        rw [if_neg (fun hc => hni hc.1)]
        simp [hk, hact]
  · intro sm
    rcases sm with ⟨oid, cur, trs⟩
    cases cur <;> rfl

/-- A three-order map for the reconcile witness: one `Submitted`, one
`Created`, one terminal `Filled`. -/
def c9Orders : List (Nat × OrderStateMachine) :=
  [(1, { order_id := 1, current_state := .Submitted, transitions := [] }),
   (2, { order_id := 2, current_state := .Created, transitions := [] }),
   (3, { order_id := 3, current_state := .Filled, transitions := [] })]

/-- C9 witness: with every order timed out, the reconcile pass emits
`OrderExpired` for the two active orders, moves the `Submitted` one to
`Expired` with the transition recorded, and leaves the terminal `Filled`
one untouched. -/
theorem c9_reconcile_amended_witness :
    (c9Orders.map Prod.fst).Nodup ∧
    (OrderManager.reconcile c9Orders (fun _ => true)).2 =
      [OrderEvent.OrderExpired 1, OrderEvent.OrderExpired 2] ∧
    lookupAssoc (OrderManager.reconcile c9Orders (fun _ => true)).1 1 =
      some (⟨1, .Expired, [⟨.Submitted, .Expired, "Timeout"⟩]⟩ :
        OrderStateMachine) ∧
    lookupAssoc (OrderManager.reconcile c9Orders (fun _ => true)).1 3 =
      some (⟨3, .Filled, []⟩ : OrderStateMachine) := by
  have hnd : (c9Orders.map Prod.fst).Nodup := by decide
  obtain ⟨hE, hL, _⟩ := c9_reconcile_amended c9Orders (fun _ => true) hnd
  refine ⟨hnd, ?_, ?_, ?_⟩
  · rw [hE]
    rfl
  · rw [hL 1]
    rfl
  · rw [hL 3]
    rfl

end EaOkx
